import Mathlib

/-!
# Verification of the `tss` transactional core and file input-output header

Shallow embedding of `src/transaction.rs` and
`src/persistence_layer/file_io/db_header.rs` of the repository, together
with theorems settling the specification claims about them.

Machine integers (`usize`, `u64`) are modelled as `Nat`; where the Rust
code can overflow (`u64::to_le_bytes`) the embedding truncates explicitly
with `% 2 ^ 64`.  Mutex acquisition never fails in the model (poisoning is
out of scope), matching the non-poisoned executions of the code.
-/

namespace Tss

/-- The crate's `Error` enum (`Fail`, `Conflict`, `Timeout`, `IO(kind)` written here as `ioError`);
the input-output error kind is abstracted as a number. -/
inductive Error where
  | Fail : Error
  | Conflict : Error
  | Timeout : Error
  | ioError : Nat → Error
deriving DecidableEq, Repr

/-- Modelled from the spec: the `Sequencer` trait is not under `src/`
(`transaction.rs` only consumes it).  Per §4.1 the clock domain is totally
ordered with a zero default, `get` reads the current value and `advance`
atomically returns a clock strictly greater than any previously returned.
The atomic-counter sequencer assumed by the spec for testing is used:
state is a `Nat`, `advance` increments it and returns the new value. -/
def Sequencer.get (q : Nat) : Nat := q

/-- `advance`: returns the freshly produced clock and the new sequencer
state (the counter incremented by one). -/
def Sequencer.advance (q : Nat) : Nat × Nat := (q + 1, q + 1)

/-- The default ("pre-history") clock value, `S::Clock::default()`. -/
def Clock.default : Nat := 0

/-- Modelled from the spec: `Annals` (`journal.rs`) is not under `src/`.
Per §3 it is a batch of changes tagged with the assigned transaction-local
clock; the change payload is abstracted as a number. -/
structure Annals where
  payload : Nat
  submit_clock : Nat
deriving DecidableEq, Repr

/-- `Annals::assign_clock` (called from `Transaction::record`): stamps the
assigned transaction-local clock onto the batch. -/
def Annals.assign_clock (a : Annals) (c : Nat) : Annals :=
  { a with submit_clock := c }

/-- `Anchor<S>`: the per-transaction data shared with journals and
snapshots that outlives the `Transaction` (`transaction.rs:311-317`). -/
structure Anchor where
  preliminary_snapshot : Nat
  commit_snapshot : Nat
deriving DecidableEq, Repr

/-- `Anchor::new` (`transaction.rs:320-325`): both snapshots start at the
default clock. -/
def Anchor.new : Anchor :=
  { preliminary_snapshot := Clock.default, commit_snapshot := Clock.default }

/-- The mutable state of a `Transaction<'s, S>` (`transaction.rs:18-37`):
the mutex-guarded record list, the atomic transaction-local clock, and the
shared anchor.  The `_storage` and `sequencer` references are modelled by
passing the sequencer state explicitly to the operations that use it. -/
structure TxState where
  record : List Annals
  clock : Nat
  anchor : Anchor
deriving DecidableEq, Repr

namespace Transaction

/-- `Transaction::new` (`transaction.rs:50-58`): empty record list, clock
zero, fresh anchor. -/
def new : TxState :=
  { record := [], clock := 0, anchor := Anchor.new }

/-- `Transaction::clock` (`transaction.rs:112-114`): acquire-load of the
transaction-local clock. -/
def clock (s : TxState) : Nat := s.clock

/-- `Transaction::rewind` (`transaction.rs:141-153`).  If the record list
is longer than the target, pop from the back until the length equals the
target (`List.take`), store the new length into the clock and return it;
otherwise return `Err(Error::Fail)` leaving the state untouched. -/
def rewind (s : TxState) (clock : Nat) : Except Error Nat × TxState :=
  if s.record.length > clock then
    let record_vector := s.record.take clock
    let new_clock := record_vector.length
    (Except.ok new_clock, { s with record := record_vector, clock := new_clock })
  else
    (Except.error Error.Fail, s)

/-- `Transaction::record` (`transaction.rs:211-219`): push the `Annals`,
read the new length, stamp it onto the pushed element, store it into the
transaction clock, and return it. -/
def record (s : TxState) (a : Annals) : Nat × TxState :=
  let record_vector := s.record ++ [a]
  let new_clock := record_vector.length
  let record_vector := record_vector.set (new_clock - 1) (a.assign_clock new_clock)
  (new_clock, { s with record := record_vector, clock := new_clock })

/-- `Transaction::rollback` (`transaction.rs:195-203`): pop every record
in reverse-append order and drop the transaction. -/
def rollback (s : TxState) : TxState :=
  { s with record := [] }

end Transaction

/-- The sequence of clocks returned by successive `Transaction::record`
calls, paired with the state after each call. -/
def recordTrace (s : TxState) : List Annals → List (Nat × TxState)
  | [] => []
  | a :: as' =>
      let r := Transaction.record s a
      r :: recordTrace r.2 as'

/-- `Rubicon<'s, S>` (`transaction.rs:240-242`): an optional transaction,
taken exactly once by commit, rollback or drop. -/
structure Rubicon where
  transaction : Option TxState
deriving DecidableEq, Repr

/-- `self.transaction.take()`: returns the held transaction (if any) and
leaves the `Rubicon` empty. -/
def Rubicon.take (r : Rubicon) : Option TxState × Rubicon :=
  (r.transaction, ⟨none⟩)

/-- `Transaction::commit` (`transaction.rs:172-182`): stores the
sequencer's current value into `Anchor.preliminary_snapshot` and moves the
transaction into a `Rubicon`; unconditionally returns `Ok`.  `q` is the
current sequencer state. -/
def Transaction.commit (s : TxState) (q : Nat) : Except Error Rubicon :=
  let anchor := { s.anchor with preliminary_snapshot := Sequencer.get q }
  Except.ok ⟨some { s with anchor := anchor }⟩

/-- `Rubicon::post_process` (`transaction.rs:289-298`): advances the
sequencer, stamps the returned clock into `Anchor.commit_snapshot`,
disposes of the transaction and returns the clock.  Result: (returned
clock, new sequencer state, the transaction's anchor after the write). -/
def Rubicon.post_process (t : TxState) (q : Nat) : Nat × Nat × Anchor :=
  let commit_snapshot := (Sequencer.advance q).1
  (commit_snapshot, (Sequencer.advance q).2,
    { t.anchor with commit_snapshot := commit_snapshot })

/-- `Rubicon::commit` (`transaction.rs:263-267`):
`self.transaction.take().map_or_else(S::Clock::default, Self::post_process)`.
Result: (returned clock, new sequencer state, the anchor written (if a
transaction was present), the `Rubicon` afterwards). -/
def Rubicon.commit (r : Rubicon) (q : Nat) : Nat × Nat × Option Anchor × Rubicon :=
  match r.take with
  | (some t, r2) => ((Rubicon.post_process t q).1, (Rubicon.post_process t q).2.1,
      some (Rubicon.post_process t q).2.2, r2)
  | (none, r2) => (Clock.default, q, none, r2)

/-- `impl Drop for Rubicon` (`transaction.rs:301-308`): if a transaction
is still held, take it and post-process it; otherwise do nothing.
Result: (new sequencer state, the anchor written (if any), the `Rubicon`
afterwards). -/
def Rubicon.dropFinalize (r : Rubicon) (q : Nat) : Nat × Option Anchor × Rubicon :=
  match r.take with
  | (some t, r2) => ((Rubicon.post_process t q).2.1,
      some (Rubicon.post_process t q).2.2, r2)
  | (none, r2) => (q, none, r2)

/-- `Rubicon::rollback` (`transaction.rs:282-286`): take the transaction
(if any) and roll it back.  Result: (the rolled-back transaction state,
the `Rubicon` afterwards). -/
def Rubicon.rollback (r : Rubicon) : Option TxState × Rubicon :=
  match r.take with
  | (some t, r2) => (some (Transaction.rollback t), r2)
  | (none, r2) => (none, r2)

/-- State of the commit-fence system of one transaction (claim about
`Anchor::new` and `Rubicon::post_process`): the sequencer state, the
transaction's anchor, whether the `Rubicon` has finalized, and every
sequencer value observed (via `get`) before finalization began. -/
structure FenceState where
  seq : Nat
  anchor : Anchor
  finalized : Bool
  observed : List Nat
deriving DecidableEq, Repr

/-- Events of the commit-fence system: observing the sequencer before
finalization, an advance by some other transaction's commit, and the
finalization of this transaction's `Rubicon`. -/
inductive FenceEvent where
  | observe : FenceEvent
  | externalAdvance : FenceEvent
  | finalize : FenceEvent
deriving DecidableEq, Repr

/-- Initial fence state: the anchor as built by `Anchor::new`, an
arbitrary sequencer state `q`, nothing observed, not finalized. -/
def fenceInit (q : Nat) : FenceState :=
  { seq := q, anchor := Anchor.new, finalized := false, observed := [] }

/-- One step of the commit-fence system.  `finalize` applies
`Rubicon::post_process` to the tracked anchor; observations after
finalization are not recorded (the claim quantifies over values observed
before finalization began). -/
def fenceStep (s : FenceState) : FenceEvent → FenceState
  | .observe =>
      if s.finalized then s
      else { s with observed := Sequencer.get s.seq :: s.observed }
  | .externalAdvance => { s with seq := (Sequencer.advance s.seq).2 }
  | .finalize =>
      if s.finalized then s
      else
        { s with
          seq := (Rubicon.post_process { Transaction.new with anchor := s.anchor } s.seq).2.1,
          anchor := (Rubicon.post_process { Transaction.new with anchor := s.anchor } s.seq).2.2,
          finalized := true }

/-- Run of the commit-fence system from construction. -/
def fenceRun (q : Nat) (evs : List FenceEvent) : FenceState :=
  evs.foldl fenceStep (fenceInit q)

/-- Modelled from the spec: `RandomAccessFile` (the file input-output collaborator
of §6) is not under `src/`.  It is a positional byte store: a length and
a byte at every offset. -/
structure RandomAccessFile where
  len : Nat
  data : Nat → Nat

/-- `RandomAccessFile::set_len`: resizes the file; bytes beyond the old
or new length read as zero. -/
def RandomAccessFile.set_len (f : RandomAccessFile) (n : Nat) : RandomAccessFile :=
  { len := n, data := fun i => if i < f.len ∧ i < n then f.data i else 0 }

/-- `RandomAccessFile::write`: writes `buffer` at offset `off`, extending
the file if needed. -/
def RandomAccessFile.write (f : RandomAccessFile) (buffer : List Nat) (off : Nat) :
    RandomAccessFile :=
  { len := max f.len (off + buffer.length),
    data := fun i =>
      if off ≤ i ∧ i < off + buffer.length then buffer.getD (i - off) 0 else f.data i }

/-- `RandomAccessFile::read` into an `n`-byte buffer at offset `off`. -/
def RandomAccessFile.read (f : RandomAccessFile) (n off : Nat) : List Nat :=
  (List.range n).map fun i => f.data (off + i)

/-- `u64::to_le_bytes`: the eight little-endian bytes of `v mod 2^64`. -/
def u64.to_le_bytes (v : Nat) : List Nat :=
  [v % 256, v / 256 % 256, v / 65536 % 256, v / 16777216 % 256,
   v / 4294967296 % 256, v / 1099511627776 % 256,
   v / 281474976710656 % 256, v / 72057594037927936 % 256]

/-- `u64::from_le_bytes`: recombines little-endian bytes. -/
def u64.from_le_bytes (bs : List Nat) : Nat :=
  bs.foldr (fun b acc => b + 256 * acc) 0

/-- `DatabaseHeader` (`db_header.rs:13-25`). -/
structure DatabaseHeader where
  version : Nat
  log_offset : Nat
  directory_offset : Nat
  free_page_link : Nat
deriving DecidableEq, Repr

/-- The database version (`db_header.rs:28`). -/
def VERSION : Nat := 1

/-- The size of a page, `1_u64 << 9` (`db_header.rs:31`). -/
def PAGE_SIZE : Nat := 1 <<< 9

/-- `impl Default for DatabaseHeader` (`db_header.rs:83-93`). -/
def DatabaseHeader.default : DatabaseHeader :=
  { version := VERSION, log_offset := PAGE_SIZE,
    directory_offset := PAGE_SIZE * 2, free_page_link := 0 }

/-- `DatabaseHeader::flush_header` (`db_header.rs:65-80`): extend the file
to `3 * PAGE_SIZE` if shorter, then write the four fields little-endian at
offsets 0, 8, 16, 24 (`sync_all` has no observable effect in the model;
input-output never fails). -/
def DatabaseHeader.flush_header (h : DatabaseHeader) (db : RandomAccessFile) :
    RandomAccessFile :=
  let db := if db.len < PAGE_SIZE * 3 then db.set_len (PAGE_SIZE * 3) else db
  let db := db.write (u64.to_le_bytes h.version) 0
  let db := db.write (u64.to_le_bytes h.log_offset) 8
  let db := db.write (u64.to_le_bytes h.directory_offset) 16
  let db := db.write (u64.to_le_bytes h.free_page_link) 24
  db

/-- `DatabaseHeader::from_file` (`db_header.rs:38-60`): on a zero-length
file, flush the default header and return it; otherwise read the four
little-endian fields at offsets 0, 8, 16, 24.  Returns the header and the
file afterwards. -/
def DatabaseHeader.from_file (db : RandomAccessFile) :
    DatabaseHeader × RandomAccessFile :=
  if db.len = 0 then
    let db_header := DatabaseHeader.default
    (db_header, db_header.flush_header db)
  else
    let version := u64.from_le_bytes (db.read 8 0)
    let log_offset := u64.from_le_bytes (db.read 8 8)
    let directory_offset := u64.from_le_bytes (db.read 8 16)
    let free_page_link := u64.from_le_bytes (db.read 8 24)
    ({ version := version, log_offset := log_offset,
       directory_offset := directory_offset, free_page_link := free_page_link }, db)

/-- Inductive invariant of the commit-fence system: before finalization
the commit snapshot is still the default and every observed value is at
most the current sequencer value; after finalization every value observed
before finalization is strictly below the commit snapshot. -/
def FenceInv (s : FenceState) : Prop :=
  (¬ s.finalized = true →
      s.anchor.commit_snapshot = Clock.default ∧ ∀ v ∈ s.observed, v ≤ s.seq) ∧
  (s.finalized = true → ∀ v ∈ s.observed, v < s.anchor.commit_snapshot)

theorem record_fst (s : TxState) (a : Annals) :
    (Transaction.record s a).1 = s.record.length + 1 := by
  simp [Transaction.record]

theorem record_snd_record_length (s : TxState) (a : Annals) :
    (Transaction.record s a).2.record.length = s.record.length + 1 := by
  simp [Transaction.record]

theorem record_snd_clock (s : TxState) (a : Annals) :
    (Transaction.record s a).2.clock = s.record.length + 1 := by
  simp [Transaction.record]

theorem recordTrace_mem (s : TxState) (as' : List Annals) :
    ∀ p ∈ recordTrace s as',
      1 ≤ p.1 ∧ p.1 = p.2.record.length ∧ p.1 = p.2.clock := by
  induction as' generalizing s with
  | nil => intro p hp; simp [recordTrace] at hp
  | cons a as' ih =>
      intro p hp
      simp only [recordTrace, List.mem_cons] at hp
      rcases hp with rfl | hp
      · refine ⟨?_, ?_, ?_⟩
        · simp [record_fst]
        · simp [record_fst, record_snd_record_length]
        · simp [record_fst, record_snd_clock]
      · exact ih _ p hp

theorem recordTrace_chain (s : TxState) (as' : List Annals) :
    List.Chain' (· < ·) ((recordTrace s as').map Prod.fst) := by
  induction as' generalizing s with
  | nil => simp [recordTrace]
  | cons a as' ih =>
      cases as' with
      | nil => simp [recordTrace]
      | cons b bs =>
          refine List.Chain'.cons ?_ (ih _)
          simp [recordTrace, record_fst, record_snd_record_length]

/-- C1 (counterexample): on a fresh transaction the target `0` satisfies
`0 ≤ transaction.clock()`, yet `rewind(0)` returns `Err(Error::Fail)`
(the code requires the target to be strictly below the current clock). -/
theorem rewind_at_current_clock_fails_cex :
    0 ≤ Transaction.clock Transaction.new ∧
    (Transaction.rewind Transaction.new 0).1 = Except.error Error.Fail :=
  ⟨Nat.le_refl 0, rfl⟩

/-- C1 (amended): for a transaction satisfying the clock/length invariant,
`rewind(k)` returns `Ok` and afterwards the clock equals `k` exactly when
`k` is strictly below the current clock; it fails (with `Error::Fail`,
leaving the state unchanged) exactly when `k ≥` the current clock. -/
theorem rewind_ok_iff_lt_clock (s : TxState) (k : Nat)
    (h : Transaction.clock s = s.record.length) :
    (k < Transaction.clock s →
        (Transaction.rewind s k).1 = Except.ok k ∧
        Transaction.clock (Transaction.rewind s k).2 = k) ∧
    (Transaction.clock s ≤ k →
        (Transaction.rewind s k).1 = Except.error Error.Fail ∧
        (Transaction.rewind s k).2 = s) := by
  simp only [Transaction.clock] at h ⊢
  constructor
  · intro hk
    rw [h] at hk
    simp [Transaction.rewind, hk, Nat.min_eq_left (Nat.le_of_lt hk)]
  · intro hk
    rw [h] at hk
    have : ¬ s.record.length > k := Nat.not_lt.mpr hk
    simp [Transaction.rewind, this]

/-- C1 (amended, witness): on a transaction with two submitted records,
`rewind(1)` succeeds and sets the clock to 1. -/
theorem rewind_ok_iff_lt_clock_witness :
    (Transaction.rewind (TxState.mk [Annals.mk 5 1, Annals.mk 6 2] 2 Anchor.new) 1).1 =
      Except.ok 1 ∧
    Transaction.clock
      (Transaction.rewind (TxState.mk [Annals.mk 5 1, Annals.mk 6 2] 2 Anchor.new) 1).2 = 1 :=
  (rewind_ok_iff_lt_clock (TxState.mk [Annals.mk 5 1, Annals.mk 6 2] 2 Anchor.new) 1
    rfl).1 (by decide)

/-- C2: along any sequence of `Transaction::record` calls the returned
clocks are strictly increasing, and each returned clock is at least 1,
equals the new record-list length, and equals `transaction.clock()`
immediately after the call. -/
theorem record_clocks_strictly_increasing (s : TxState) (as' : List Annals) :
    List.Chain' (· < ·) ((recordTrace s as').map Prod.fst) ∧
    ∀ p ∈ recordTrace s as',
      1 ≤ p.1 ∧ p.1 = p.2.record.length ∧ p.1 = Transaction.clock p.2 := by
  refine ⟨recordTrace_chain s as', ?_⟩
  intro p hp
  have h := recordTrace_mem s as' p hp
  exact ⟨h.1, h.2.1, by simpa [Transaction.clock] using h.2.2⟩

/-- C2 (witness): two submissions on a fresh transaction return clocks
1 and 2 with the stated properties. -/
theorem record_clocks_strictly_increasing_witness :
    List.Chain' (· < ·)
      ((recordTrace Transaction.new [Annals.mk 5 0, Annals.mk 6 0]).map Prod.fst) ∧
    ∀ p ∈ recordTrace Transaction.new [Annals.mk 5 0, Annals.mk 6 0],
      1 ≤ p.1 ∧ p.1 = p.2.record.length ∧ p.1 = Transaction.clock p.2 :=
  record_clocks_strictly_increasing Transaction.new [Annals.mk 5 0, Annals.mk 6 0]

/-- C3: the invariant `transaction_clock == len(record list)` holds at
`Transaction::new` and is preserved by `Transaction::record` and by
`Transaction::rewind` (both outcomes). -/
theorem transaction_clock_length_invariant (s : TxState) (a : Annals) (k : Nat)
    (h : Transaction.clock s = s.record.length) :
    Transaction.clock Transaction.new = Transaction.new.record.length ∧
    Transaction.clock (Transaction.record s a).2 =
      (Transaction.record s a).2.record.length ∧
    Transaction.clock (Transaction.rewind s k).2 =
      (Transaction.rewind s k).2.record.length := by
  refine ⟨rfl, ?_, ?_⟩
  · simp [Transaction.clock, record_snd_clock, record_snd_record_length]
  · simp only [Transaction.clock] at h ⊢
    unfold Transaction.rewind
    split
    · simp
    · exact h

/-- C3 (witness): instantiated on a one-record transaction with a rewind
target of 0. -/
theorem transaction_clock_length_invariant_witness :
    Transaction.clock Transaction.new = Transaction.new.record.length ∧
    Transaction.clock
        (Transaction.record (TxState.mk [Annals.mk 3 1] 1 Anchor.new) (Annals.mk 4 0)).2 =
      (Transaction.record (TxState.mk [Annals.mk 3 1] 1 Anchor.new) (Annals.mk 4 0)).2.record.length ∧
    Transaction.clock (Transaction.rewind (TxState.mk [Annals.mk 3 1] 1 Anchor.new) 0).2 =
      (Transaction.rewind (TxState.mk [Annals.mk 3 1] 1 Anchor.new) 0).2.record.length :=
  transaction_clock_length_invariant (TxState.mk [Annals.mk 3 1] 1 Anchor.new)
    (Annals.mk 4 0) 0 rfl

/-- C9: whenever `Transaction::rewind` returns an error, the transaction
state (record list and clock) is exactly what it was before the call. -/
theorem rewind_error_preserves_state (s : TxState) (k : Nat) (e : Error)
    (h : (Transaction.rewind s k).1 = Except.error e) :
    (Transaction.rewind s k).2 = s := by
  by_cases hc : s.record.length > k
  · exfalso
    simp [Transaction.rewind, hc] at h
  · simp [Transaction.rewind, hc]

/-- C9 (witness): `rewind(3)` on a fresh transaction fails and leaves the
state unchanged. -/
theorem rewind_error_preserves_state_witness :
    (Transaction.rewind Transaction.new 3).1 = Except.error Error.Fail ∧
    (Transaction.rewind Transaction.new 3).2 = Transaction.new :=
  ⟨rfl, rewind_error_preserves_state Transaction.new 3 Error.Fail rfl⟩

/-- C5: `Rubicon::commit` on a live `Rubicon` advances the sequencer,
writes the returned clock into `Anchor.commit_snapshot`, extracts and
disposes of the inner transaction, and returns exactly that clock. -/
theorem rubicon_commit_spec (t : TxState) (q : Nat) :
    Rubicon.commit ⟨some t⟩ q =
      ((Sequencer.advance q).1, (Sequencer.advance q).2,
        some { t.anchor with commit_snapshot := (Sequencer.advance q).1 },
        ⟨none⟩) :=
  rfl

/-- C6: dropping a `Rubicon` without explicit action performs the same
sequencer advance and the same `Anchor.commit_snapshot` write as
`Rubicon::commit`; a finalization is performed exactly when a transaction
is still held, and each of commit, rollback and drop-finalize empties the
`Rubicon`, so the finalization executes exactly once per `Rubicon`. -/
theorem rubicon_drop_behaves_as_commit (r : Rubicon) (q : Nat) :
    ((Rubicon.dropFinalize r q).1 = (Rubicon.commit r q).2.1 ∧
      (Rubicon.dropFinalize r q).2.1 = (Rubicon.commit r q).2.2.1 ∧
      (Rubicon.dropFinalize r q).2.2 = (Rubicon.commit r q).2.2.2) ∧
    (Rubicon.dropFinalize r q).2.1.isSome = r.transaction.isSome ∧
    ((Rubicon.commit r q).2.2.2.transaction = none ∧
      (Rubicon.rollback r).2.transaction = none ∧
      (Rubicon.dropFinalize r q).2.2.transaction = none) ∧
    (Rubicon.dropFinalize ⟨none⟩ q).2.1 = none := by
  obtain ⟨t⟩ := r
  cases t <;>
    simp [Rubicon.dropFinalize, Rubicon.commit, Rubicon.rollback, Rubicon.take]

/-- C7: `Transaction::commit` always returns `Ok`, sets
`Anchor.preliminary_snapshot` to the sequencer's current value
(`sequencer.get`), and moves the transaction into the returned
`Rubicon`. -/
theorem transaction_commit_never_fails (s : TxState) (q : Nat) :
    Transaction.commit s q =
      Except.ok
        ⟨some { s with
          anchor := { s.anchor with preliminary_snapshot := Sequencer.get q } }⟩ :=
  rfl

theorem fenceInv_init (q : Nat) : FenceInv (fenceInit q) := by
  simp [FenceInv, fenceInit, Anchor.new]

theorem fenceInv_step (s : FenceState) (e : FenceEvent) (h : FenceInv s) :
    FenceInv (fenceStep s e) := by
  obtain ⟨h1, h2⟩ := h
  cases e with
  | observe =>
      simp only [fenceStep]
      split
      · exact ⟨h1, h2⟩
      · next hf =>
          unfold FenceInv
          simp only [Sequencer.get, List.mem_cons]
          constructor
          · intro _
            refine ⟨(h1 hf).1, fun v hv => ?_⟩
            rcases hv with rfl | hv
            · exact Nat.le_refl _
            · exact (h1 hf).2 v hv
          · intro hc
            exact absurd hc hf
  | externalAdvance =>
      simp only [fenceStep, Sequencer.advance]
      unfold FenceInv
      constructor
      · intro hf
        exact ⟨(h1 hf).1, fun v hv => Nat.le_succ_of_le ((h1 hf).2 v hv)⟩
      · intro hc v hv
        exact h2 hc v hv
  | finalize =>
      simp only [fenceStep]
      split
      · exact ⟨h1, h2⟩
      · next hf =>
          unfold FenceInv
          simp only [Rubicon.post_process, Sequencer.advance]
          constructor
          · intro hc
            exact absurd trivial hc
          · intro _ v hv
            exact Nat.lt_succ_of_le ((h1 hf).2 v hv)

theorem fenceInv_run (q : Nat) (evs : List FenceEvent) : FenceInv (fenceRun q evs) := by
  show FenceInv (evs.foldl fenceStep (fenceInit q))
  have h : ∀ s, FenceInv s → FenceInv (evs.foldl fenceStep s) := by
    induction evs with
    | nil => exact fun s hs => hs
    | cons e evs ih => exact fun s hs => ih _ (fenceInv_step s e hs)
  exact h _ (fenceInv_init q)

/-- C4: in every run of the commit-fence system, `Anchor.commit_snapshot`
equals the default clock from construction until the `Rubicon` finalizes,
and once finalized it is strictly greater than every sequencer value
observed before finalization began. -/
theorem commit_fence (evs : List FenceEvent) (q : Nat) :
    (¬ (fenceRun q evs).finalized = true →
        (fenceRun q evs).anchor.commit_snapshot = Clock.default) ∧
    ((fenceRun q evs).finalized = true →
        ∀ v ∈ (fenceRun q evs).observed,
          v < (fenceRun q evs).anchor.commit_snapshot) := by
  have h := fenceInv_run q evs
  exact ⟨fun hf => (h.1 hf).1, h.2⟩

/-- C4 (witness): observe the sequencer at 5, let another transaction
advance it, then finalize: the commit snapshot (7) is strictly above the
observed value 5. -/
theorem commit_fence_witness :
    (fenceRun 5 [FenceEvent.observe, FenceEvent.externalAdvance,
        FenceEvent.finalize]).finalized = true ∧
    5 < (fenceRun 5 [FenceEvent.observe, FenceEvent.externalAdvance,
        FenceEvent.finalize]).anchor.commit_snapshot :=
  ⟨rfl,
    (commit_fence [FenceEvent.observe, FenceEvent.externalAdvance,
      FenceEvent.finalize] 5).2 rfl 5 (by decide)⟩

theorem to_le_bytes_length (v : Nat) : (u64.to_le_bytes v).length = 8 := rfl

theorem read_write_disjoint {f : RandomAccessFile} {bs : List Nat} {n off off2 : Nat}
    (h : off + n ≤ off2) :
    (f.write bs off2).read n off = f.read n off := by
  unfold RandomAccessFile.read RandomAccessFile.write
  apply List.map_congr_left
  intro i hi
  simp only [List.mem_range] at hi
  have hcond : ¬ (off2 ≤ off + i ∧ off + i < off2 + bs.length) := by omega
  simp [hcond]

theorem read_write_self (f : RandomAccessFile) (bs : List Nat) (off : Nat) :
    (f.write bs off).read bs.length off = bs := by
  unfold RandomAccessFile.read RandomAccessFile.write
  apply List.ext_getElem
  · simp
  · intro i h1 h2
    simp only [List.getElem_map, List.getElem_range]
    have hcond : off ≤ off + i ∧ off + i < off + bs.length := by omega
    simp only [hcond, and_self, if_true]
    have : off + i - off = i := by omega
    rw [this, List.getD_eq_getElem bs 0 h2]

theorem read8_write_self (f : RandomAccessFile) (v off : Nat) :
    (f.write (u64.to_le_bytes v) off).read 8 off = u64.to_le_bytes v :=
  read_write_self f (u64.to_le_bytes v) off

theorem flush_header_eq (h : DatabaseHeader) (db : RandomAccessFile) :
    h.flush_header db =
      ((((if db.len < PAGE_SIZE * 3 then db.set_len (PAGE_SIZE * 3) else db).write
            (u64.to_le_bytes h.version) 0).write
          (u64.to_le_bytes h.log_offset) 8).write
        (u64.to_le_bytes h.directory_offset) 16).write
        (u64.to_le_bytes h.free_page_link) 24 :=
  rfl

theorem flush_header_len (h : DatabaseHeader) (db : RandomAccessFile) :
    PAGE_SIZE * 3 ≤ (h.flush_header db).len := by
  rw [flush_header_eq]
  simp only [RandomAccessFile.write, RandomAccessFile.set_len, to_le_bytes_length]
  by_cases hc : db.len < PAGE_SIZE * 3
  · simp only [hc, if_true]
    omega
  · simp only [hc, if_false]
    omega

theorem flush_read_version (h : DatabaseHeader) (db : RandomAccessFile) :
    (h.flush_header db).read 8 0 = u64.to_le_bytes h.version := by
  rw [flush_header_eq,
    read_write_disjoint (show 0 + 8 ≤ 24 by omega),
    read_write_disjoint (show 0 + 8 ≤ 16 by omega),
    read_write_disjoint (show 0 + 8 ≤ 8 by omega),
    read8_write_self]

theorem flush_read_log_offset (h : DatabaseHeader) (db : RandomAccessFile) :
    (h.flush_header db).read 8 8 = u64.to_le_bytes h.log_offset := by
  rw [flush_header_eq,
    read_write_disjoint (show 8 + 8 ≤ 24 by omega),
    read_write_disjoint (show 8 + 8 ≤ 16 by omega),
    read8_write_self]

theorem flush_read_directory_offset (h : DatabaseHeader) (db : RandomAccessFile) :
    (h.flush_header db).read 8 16 = u64.to_le_bytes h.directory_offset := by
  rw [flush_header_eq,
    read_write_disjoint (show 16 + 8 ≤ 24 by omega),
    read8_write_self]

theorem flush_read_free_page_link (h : DatabaseHeader) (db : RandomAccessFile) :
    (h.flush_header db).read 8 24 = u64.to_le_bytes h.free_page_link := by
  rw [flush_header_eq, read8_write_self]

theorem from_to_le (v : Nat) (hv : v < 2 ^ 64) :
    u64.from_le_bytes (u64.to_le_bytes v) = v := by
  have hpow : (2 : Nat) ^ 64 = 18446744073709551616 := by norm_num
  rw [hpow] at hv
  simp only [u64.from_le_bytes, u64.to_le_bytes, List.foldr_cons, List.foldr_nil]
  omega

/-- C8: `DatabaseHeader::from_file` on a zero-length file returns the
default header `(version 1, log_offset PAGE_SIZE, directory_offset
2·PAGE_SIZE, free_page_link 0)` with `PAGE_SIZE = 512`, writes that header
to the file and leaves the file at least `3·PAGE_SIZE` bytes long; on a
non-empty file it reads the four little-endian 64-bit fields at offsets
0, 8, 16 and 24 and leaves the file untouched. -/
theorem from_file_spec (db : RandomAccessFile) :
    (db.len = 0 →
        (DatabaseHeader.from_file db).1 = DatabaseHeader.mk 1 512 1024 0 ∧
        (DatabaseHeader.from_file db).2 = DatabaseHeader.default.flush_header db ∧
        PAGE_SIZE = 512 ∧
        PAGE_SIZE * 3 ≤ (DatabaseHeader.from_file db).2.len) ∧
    (db.len ≠ 0 →
        (DatabaseHeader.from_file db).1 =
          DatabaseHeader.mk (u64.from_le_bytes (db.read 8 0))
            (u64.from_le_bytes (db.read 8 8))
            (u64.from_le_bytes (db.read 8 16))
            (u64.from_le_bytes (db.read 8 24)) ∧
        (DatabaseHeader.from_file db).2 = db) := by
  constructor
  · intro h0
    refine ⟨?_, ?_, rfl, ?_⟩
    · simp [DatabaseHeader.from_file, h0]
      rfl
    · simp [DatabaseHeader.from_file, h0]
    · simp only [DatabaseHeader.from_file, h0, if_true]
      exact flush_header_len DatabaseHeader.default db
  · intro h0
    simp [DatabaseHeader.from_file, h0]

/-- C8 (witness): on the empty file the default header is returned; on a
non-empty all-ones file the file is left untouched. -/
theorem from_file_spec_witness :
    (DatabaseHeader.from_file (RandomAccessFile.mk 0 fun _ => 0)).1 =
      DatabaseHeader.mk 1 512 1024 0 ∧
    (DatabaseHeader.from_file (RandomAccessFile.mk 32 fun _ => 1)).2 =
      RandomAccessFile.mk 32 fun _ => 1 :=
  ⟨((from_file_spec (RandomAccessFile.mk 0 fun _ => 0)).1 rfl).1,
    ((from_file_spec (RandomAccessFile.mk 32 fun _ => 1)).2 (by decide)).2⟩

/-- C10: round trip — flushing a header (whose fields are in the `u64`
range) and re-opening the file returns a header with the same four
fields. -/
theorem header_round_trip (h : DatabaseHeader) (db : RandomAccessFile)
    (h1 : h.version < 2 ^ 64) (h2 : h.log_offset < 2 ^ 64)
    (h3 : h.directory_offset < 2 ^ 64) (h4 : h.free_page_link < 2 ^ 64) :
    (DatabaseHeader.from_file (h.flush_header db)).1 = h := by
  have hp : PAGE_SIZE = 512 := rfl
  have hlen := flush_header_len h db
  have hne : ¬ (h.flush_header db).len = 0 := by omega
  simp only [DatabaseHeader.from_file, hne, if_false, flush_read_version,
    flush_read_log_offset, flush_read_directory_offset, flush_read_free_page_link,
    from_to_le h.version h1, from_to_le h.log_offset h2,
    from_to_le h.directory_offset h3, from_to_le h.free_page_link h4]

/-- C10 (witness): a concrete header written to the empty file is read
back unchanged. -/
theorem header_round_trip_witness :
    (DatabaseHeader.from_file
        ((DatabaseHeader.mk 1 512 1024 7).flush_header
          (RandomAccessFile.mk 0 fun _ => 0))).1 =
      DatabaseHeader.mk 1 512 1024 7 :=
  header_round_trip (DatabaseHeader.mk 1 512 1024 7)
    (RandomAccessFile.mk 0 fun _ => 0) (by norm_num) (by norm_num) (by norm_num)
    (by norm_num)

end Tss
